import Mathlib

/-!
Shallow embedding of the Tomasulo-style out-of-order scheduling core
(src/src/ooo.cpp: Core::issue, Core::execute, Core::writeback, Core::commit)
together with the component contracts of its collaborators (RAT, ROB,
reservation-station pool, RST, CDB, functional units) that are declared in
headers outside the provided sources and are therefore modelled from the
specification's component-design section.
-/

set_option autoImplicit false

namespace OOO

/-- Execute-flags of an instruction, as exposed by getExeFlags(). -/
structure ExeFlags where
  use_rs1 : Bool
  use_rs2 : Bool
  use_rd : Bool
  is_exit : Bool
deriving DecidableEq, Repr

/-- Modelled from the spec: the opaque Instruction capability, exposing only
getRs1, getRs2, getRd, getExeFlags and getFUType. -/
structure Instruction where
  rs1 : Nat
  rs2 : Nat
  rd : Nat
  exe_flags : ExeFlags
  fu_type : Nat
deriving DecidableEq, Repr

instance : Inhabited Instruction :=
  ⟨{ rs1 := 0, rs2 := 0, rd := 0,
     exe_flags := { use_rs1 := false, use_rs2 := false, use_rd := false, is_exit := false },
     fu_type := 0 }⟩

/-- A reorder-buffer entry: instruction handle, ready flag, result value. -/
structure ROBEntry where
  instr : Instruction
  ready : Bool
  result : Nat
deriving DecidableEq, Repr

instance : Inhabited ROBEntry := ⟨{ instr := default, ready := false, result := 0 }⟩

/-- Modelled from the spec: the circular fixed-capacity reorder buffer.
Slots are a total map over indices; occupancy is tracked by head and count,
the live region being the indices (head + k) % capacity for k < count. -/
structure ROB where
  capacity : Nat
  entries : Nat → ROBEntry
  head : Nat
  count : Nat

/-- ROB::full(): occupancy reached capacity. -/
def ROB_full (rob : ROB) : Bool := rob.count == rob.capacity

/-- ROB::empty(): no in-flight entries. -/
def ROB_empty (rob : ROB) : Bool := rob.count == 0

/-- Index the next ROB::allocate will hand out (the tail slot). -/
def newROBIndex (rob : ROB) : Nat := (rob.head + rob.count) % rob.capacity

/-- ROB::allocate(instr): append a not-ready entry at the tail. -/
def ROB_allocate (rob : ROB) (instr : Instruction) : ROB :=
  { rob with
    entries := fun j =>
      if j = newROBIndex rob then { instr := instr, ready := false, result := 0 }
      else rob.entries j,
    count := rob.count + 1 }

/-- A common-data-bus message: result, producing ROB index, producing RS slot. -/
structure CDBMsg where
  result : Nat
  rob_index : Nat
  rs_index : Nat
deriving DecidableEq, Repr

/-- ROB::update(cdb_message): mark the entry at the message's ROB index
ready and store its result. -/
def ROB_update (msg : CDBMsg) (rob : ROB) : ROB :=
  { rob with
    entries := fun j =>
      if j = msg.rob_index then
        { rob.entries j with ready := true, result := msg.result }
      else rob.entries j }

/-- ROB::pop(): retire the head entry, advancing the circular head. -/
def ROB_pop (rob : ROB) : ROB :=
  { rob with head := (rob.head + 1) % rob.capacity, count := rob.count - 1 }

/-- A reservation-station slot: validity, running flag, external lock,
producing ROB index, operand state (value plus pending producer slot id,
with -1 meaning already resolved), and the instruction handle. -/
structure RSEntry where
  valid : Bool
  running : Bool
  locked : Bool
  rob_index : Nat
  rs1_rsid : Int
  rs2_rsid : Int
  rs1_data : Nat
  rs2_data : Nat
  instr : Instruction
deriving DecidableEq, Repr

instance : Inhabited RSEntry :=
  ⟨{ valid := false, running := false, locked := false, rob_index := 0,
     rs1_rsid := -1, rs2_rsid := -1, rs1_data := 0, rs2_data := 0, instr := default }⟩

/-- RS::operands_ready: both producer ids cleared to the -1 sentinel. -/
def operandsReady (e : RSEntry) : Bool := e.rs1_rsid == -1 && e.rs2_rsid == -1

/-- RS pool full: every slot valid. -/
def RS_full (rs : List RSEntry) : Bool := rs.all fun e => e.valid

/-- Index of the lowest free (invalid) RS slot, if any. -/
def firstInvalid : List RSEntry → Option Nat
  | [] => none
  | e :: rest => if e.valid then (firstInvalid rest).map (· + 1) else some 0

/-- Modelled from the spec: RS::issue claims a free slot, stores operand
state and marks it valid and not running; returns the claimed slot index. -/
def RS_issue (rs : List RSEntry) (entry : RSEntry) : List RSEntry × Nat :=
  match firstInvalid rs with
  | some j => (rs.set j entry, j)
  | none => (rs, rs.length)

/-- RS::entry_t::update_operands: replace a pending producer id matching the
broadcasting slot with the broadcast result. -/
def updateOperands (msg : CDBMsg) (e : RSEntry) : RSEntry :=
  let e1 :=
    if e.rs1_rsid == (msg.rs_index : Int) then
      { e with rs1_data := msg.result, rs1_rsid := -1 }
    else e
  if e1.rs2_rsid == (msg.rs_index : Int) then
    { e1 with rs2_data := msg.result, rs2_rsid := -1 }
  else e1

/-- Apply a function to the element at an index of a list, when present. -/
def modifyAt {α : Type} (l : List α) (i : Nat) (f : α → α) : List α :=
  match l.get? i with
  | some a => l.set i (f a)
  | none => l

/-- The output record of a functional unit: result plus producer identifiers. -/
structure FU where
  busy : Bool
  counter : Nat
  out : CDBMsg
deriving DecidableEq, Repr

instance : Inhabited FU :=
  ⟨{ busy := false, counter := 0, out := { result := 0, rob_index := 0, rs_index := 0 } }⟩

/-- FU::execute(): advance the internal latency countdown by one cycle. -/
def FU.step (fu : FU) : FU :=
  if fu.busy then { fu with counter := fu.counter - 1 } else fu

/-- FU::done(): countdown reached zero and the result not yet consumed. -/
def FU.done (fu : FU) : Bool := fu.busy && fu.counter == 0

/-- FU::clear(): release the unit for reuse. -/
def FU.clear (fu : FU) : FU := { fu with busy := false }

/-- Modelled from the spec: FU::issue begins the internal latency countdown
for the given instruction; the opcode semantics and the latency are the
unit's own concern and are passed in as parameters. -/
def FU.issueOp (sem : Instruction → Nat → Nat → Nat) (lat : Instruction → Nat)
    (instr : Instruction) (rob_index rs_index d1 d2 : Nat) : FU :=
  { busy := true, counter := lat instr,
    out := { result := sem instr d1 d2, rob_index := rob_index, rs_index := rs_index } }

/-- The full scheduler state operated on by the four pipeline stages. -/
structure Core where
  issue_queue : List Instruction
  RAT : Nat → Option Nat
  ROB : ROB
  RS : List RSEntry
  RST : Nat → Int
  CDB : Option CDBMsg
  FUs : List FU
  reg_file : Nat → Nat
  exited : Bool
  perf_instrs : Nat
  fetched_instrs : Nat

/-- RAT::set(reg, rob_index): unconditional overwrite. -/
def ratSet (rat : Nat → Option Nat) (r i : Nat) : Nat → Option Nat :=
  fun r' => if r' = r then some i else rat r'

/-- RAT::clear(reg): remove the mapping. -/
def ratClear (rat : Nat → Option Nat) (r : Nat) : Nat → Option Nat :=
  fun r' => if r' = r then none else rat r'

/-- Source-operand resolution as performed inline in Core::issue for each of
rs1 and rs2: data defaults to 0 and producer id to the -1 sentinel; when the
operand is used, a RAT hit reads the producing ROB entry (its result when
ready, else the producer's RS slot via RST), and a RAT miss reads the
architectural register file. -/
def resolvedPair (c : Core) (use : Bool) (r : Nat) : Nat × Int :=
  if use then
    match c.RAT r with
    | some rob_index =>
      if (c.ROB.entries rob_index).ready then ((c.ROB.entries rob_index).result, -1)
      else (0, c.RST rob_index)
    | none => (c.reg_file r, -1)
  else (0, -1)

/-- The RS entry Core::issue creates for the instruction at the queue head. -/
def issuedEntry (c : Core) (instr : Instruction) : RSEntry :=
  { valid := true, running := false, locked := false,
    rob_index := newROBIndex c.ROB,
    rs1_rsid := (resolvedPair c instr.exe_flags.use_rs1 instr.rs1).2,
    rs2_rsid := (resolvedPair c instr.exe_flags.use_rs2 instr.rs2).2,
    rs1_data := (resolvedPair c instr.exe_flags.use_rs1 instr.rs1).1,
    rs2_data := (resolvedPair c instr.exe_flags.use_rs2 instr.rs2).1,
    instr := instr }

/-- Core::issue, translated from src/src/ooo.cpp: no-op on an empty issue
queue; stall with no state change on a structural hazard (RS pool or ROB
full); otherwise resolve operands against the current state, allocate a ROB
entry, rename the destination in the RAT, claim an RS slot, record the RST
mapping, and pop the issue queue. -/
def Core.issue (c : Core) : Core :=
  match c.issue_queue with
  | [] => c
  | instr :: rest =>
    if RS_full c.RS || ROB_full c.ROB then c
    else
      let rob_index := newROBIndex c.ROB
      let q := RS_issue c.RS (issuedEntry c instr)
      { c with
        issue_queue := rest,
        ROB := ROB_allocate c.ROB instr,
        RAT := if instr.exe_flags.use_rd then ratSet c.RAT instr.rd rob_index else c.RAT,
        RS := q.1,
        RST := if instr.exe_flags.use_rd then
                 fun k => if k = rob_index then (q.2 : Int) else c.RST k
               else c.RST }

/-- The first stage of Core::execute: every functional unit advances one
cycle regardless of bus state. -/
def advanceFUs (fus : List FU) : List FU := fus.map FU.step

/-- The CDB-drain scan of Core::execute: the first done unit broadcasts to
the CDB if the bus is empty and is cleared; at most one unit drains. -/
def drainScan : List FU → Option CDBMsg → List FU × Option CDBMsg
  | [], cdb => ([], cdb)
  | fu :: rest, cdb =>
    if fu.done && cdb.isNone then (FU.clear fu :: rest, some fu.out)
    else
      let p := drainScan rest cdb
      (fu :: p.1, p.2)

/-- Dispatch eligibility tested by Core::execute's scheduling scan: valid,
not running, operands ready, not locked, and the target functional unit
(selected by the instruction's FU type) not busy. -/
def eligible (fus : List FU) (e : RSEntry) : Bool :=
  e.valid && !e.running && operandsReady e && !e.locked
    && !(fus.getD e.instr.fu_type default).busy

/-- The scheduling scan of Core::execute: walk RS slots in index order (the
Nat argument is the absolute index of the list head) and dispatch the first
eligible slot to its functional unit, marking it running; at most one
dispatch. -/
def dispatchScan (sem : Instruction → Nat → Nat → Nat) (lat : Instruction → Nat)
    (fus : List FU) : List RSEntry → Nat → List RSEntry × List FU
  | [], _ => ([], fus)
  | e :: rest, i =>
    if eligible fus e then
      ({ e with running := true } :: rest,
       fus.set e.instr.fu_type
         (FU.issueOp sem lat e.instr e.rob_index i e.rs1_data e.rs2_data))
    else
      let p := dispatchScan sem lat fus rest (i + 1)
      (e :: p.1, p.2)

/-- The functional units after Core::execute's advance and drain phases,
before the dispatch scan. -/
def midFUs (c : Core) : List FU := (drainScan (advanceFUs c.FUs) c.CDB).1

/-- Core::execute, translated from src/src/ooo.cpp: advance all functional
units, drain at most one done unit onto the CDB, then dispatch at most one
ready reservation-station entry to a free functional unit. -/
def Core.execute (sem : Instruction → Nat → Nat → Nat) (lat : Instruction → Nat)
    (c : Core) : Core :=
  let p := drainScan (advanceFUs c.FUs) c.CDB
  let q := dispatchScan sem lat p.1 c.RS 0
  { c with FUs := q.2, CDB := p.2, RS := q.1 }

/-- Core::writeback, translated from src/src/ooo.cpp: no-op when the CDB is
empty; otherwise broadcast the message to every valid RS entry, release the
producing RS slot, apply the update to the ROB entry, and clear the bus. -/
def Core.writeback (c : Core) : Core :=
  match c.CDB with
  | none => c
  | some msg =>
    let rs1 := c.RS.map fun e => if e.valid then updateOperands msg e else e
    { c with
      RS := modifyAt rs1 msg.rs_index (fun e => { e with valid := false }),
      ROB := ROB_update msg c.ROB,
      CDB := none }

/-- The condition of the consistency assertion executed by Core::commit just
before it increments the committed-instruction counter. -/
def commitAssert (c : Core) : Prop := c.perf_instrs ≤ c.fetched_instrs

/-- Core::commit, translated from src/src/ooo.cpp: no-op when the ROB is
empty or its head not ready; otherwise write the register file and clear a
still-current RAT mapping for the destination, pop the ROB head, count the
retired instruction, and latch termination for an exit instruction. -/
def Core.commit (c : Core) : Core :=
  if ROB_empty c.ROB then c
  else
    let head_index := c.ROB.head
    let rob_head := c.ROB.entries head_index
    if rob_head.ready then
      let instr := rob_head.instr
      { c with
        reg_file := if instr.exe_flags.use_rd then
                      fun r => if r = instr.rd then rob_head.result else c.reg_file r
                    else c.reg_file,
        RAT := if instr.exe_flags.use_rd && (c.RAT instr.rd == some head_index) then
                 ratClear c.RAT instr.rd
               else c.RAT,
        ROB := ROB_pop c.ROB,
        perf_instrs := c.perf_instrs + 1,
        exited := c.exited || instr.exe_flags.is_exit }
    else c

/-- Modelled from the spec: the external fetch side enqueues an instruction
into the issue queue and advances the externally maintained
fetched-instruction counter. -/
def Core.fetch (instr : Instruction) (c : Core) : Core :=
  { c with issue_queue := c.issue_queue ++ [instr],
           fetched_instrs := c.fetched_instrs + 1 }

/-- The reset state of the scheduler: empty queue, empty RAT, empty ROB of
the given capacity, all-invalid RS slots, idle units, clear bus. -/
def Core.init (cap nrs nfu : Nat) : Core :=
  { issue_queue := [],
    RAT := fun _ => none,
    ROB := { capacity := cap, entries := fun _ => default, head := 0, count := 0 },
    RS := List.replicate nrs default,
    RST := fun _ => -1,
    CDB := none,
    FUs := List.replicate nfu default,
    reg_file := fun _ => 0,
    exited := false,
    perf_instrs := 0,
    fetched_instrs := 0 }

/-- One scheduler transition: any of the four per-cycle stage operations, or
an external fetch into the issue queue. -/
inductive Step : Core → Core → Prop where
  | issue (c : Core) : Step c c.issue
  | execute (sem : Instruction → Nat → Nat → Nat) (lat : Instruction → Nat) (c : Core) :
      Step c (c.execute sem lat)
  | writeback (c : Core) : Step c c.writeback
  | commit (c : Core) : Step c c.commit
  | fetch (instr : Instruction) (c : Core) : Step c (c.fetch instr)

/-- States reachable from the reset state by scheduler transitions. -/
def Reachable (cap nrs nfu : Nat) (c : Core) : Prop :=
  Relation.ReflTransGen Step (Core.init cap nrs nfu) c

/-- The instruction writes architectural register r. -/
def writesReg (i : Instruction) (r : Nat) : Prop :=
  i.exe_flags.use_rd = true ∧ i.rd = r

/-- The RAT invariant: a present mapping for register r names the ROB slot,
at some live offset k from the head, of the youngest in-flight instruction
writing r — no strictly younger live slot writes r. -/
def RATInv (c : Core) : Prop :=
  ∀ r i, c.RAT r = some i →
    ∃ k, k < c.ROB.count ∧ (c.ROB.head + k) % c.ROB.capacity = i ∧
      writesReg (c.ROB.entries i).instr r ∧
      ∀ k', k < k' → k' < c.ROB.count →
        ¬ writesReg (c.ROB.entries ((c.ROB.head + k') % c.ROB.capacity)).instr r

/-- Structural well-formedness of the circular ROB. -/
def CoreWF (c : Core) : Prop :=
  c.ROB.head < c.ROB.capacity ∧ c.ROB.count ≤ c.ROB.capacity

/-- Conservation of instructions: retired plus in-flight plus queued equals
fetched. -/
def CountInv (c : Core) : Prop :=
  c.perf_instrs + c.ROB.count + c.issue_queue.length = c.fetched_instrs

/-- The inductive invariant carried through all scheduler transitions. -/
def Inv (c : Core) : Prop := CoreWF c ∧ CountInv c ∧ RATInv c

/-- Source-operand resolution as worded by the specification: (a) a RAT hit
reads the producing ROB entry, taking its result when ready and otherwise
recording the producer's RS slot id obtained through RST as the pending
dependency; (b) a RAT miss reads the architectural register file. -/
def specResolveOperand (c : Core) (r : Nat) : Nat × Int :=
  match c.RAT r with
  | some rob_index =>
    if (c.ROB.entries rob_index).ready then ((c.ROB.entries rob_index).result, -1)
    else (0, c.RST rob_index)
  | none => (c.reg_file r, -1)

/-! ### Concrete inputs used to instantiate the theorems -/

def wSem : Instruction → Nat → Nat → Nat := fun _ d1 d2 => d1 + d2

def wLat0 : Instruction → Nat := fun _ => 0

def wC1instr : Instruction :=
  { rs1 := 0, rs2 := 0, rd := 3,
    exe_flags := { use_rs1 := false, use_rs2 := false, use_rd := true, is_exit := false },
    fu_type := 0 }

def wC2instr : Instruction :=
  { rs1 := 1, rs2 := 2, rd := 3,
    exe_flags := { use_rs1 := true, use_rs2 := true, use_rd := true, is_exit := false },
    fu_type := 0 }

def wC2core : Core :=
  { issue_queue := [wC2instr],
    RAT := fun r => if r = 1 then some 0 else none,
    ROB := { capacity := 4, entries := fun _ => default, head := 0, count := 1 },
    RS := [default],
    RST := fun _ => 7,
    CDB := none,
    FUs := [default],
    reg_file := fun r => r + 10,
    exited := false,
    perf_instrs := 0,
    fetched_instrs := 1 }

def wC2entry : RSEntry :=
  { valid := true, running := false, locked := false, rob_index := 1,
    rs1_rsid := 7, rs2_rsid := -1, rs1_data := 0, rs2_data := 12, instr := wC2instr }

def wC3msg : CDBMsg := { result := 42, rob_index := 2, rs_index := 0 }

def wC3e0 : RSEntry :=
  { valid := true, running := true, locked := false, rob_index := 2,
    rs1_rsid := -1, rs2_rsid := -1, rs1_data := 5, rs2_data := 6, instr := default }

def wC3e1 : RSEntry :=
  { valid := true, running := false, locked := false, rob_index := 3,
    rs1_rsid := 0, rs2_rsid := -1, rs1_data := 0, rs2_data := 9, instr := default }

def wC3core : Core :=
  { issue_queue := [],
    RAT := fun _ => none,
    ROB := { capacity := 4, entries := fun _ => default, head := 0, count := 4 },
    RS := [wC3e0, wC3e1],
    RST := fun _ => -1,
    CDB := some wC3msg,
    FUs := [default],
    reg_file := fun _ => 0,
    exited := false, perf_instrs := 0, fetched_instrs := 4 }

def wC4e0 : RSEntry :=
  { valid := true, running := true, locked := false, rob_index := 0,
    rs1_rsid := -1, rs2_rsid := -1, rs1_data := 1, rs2_data := 2, instr := default }

def wC4e1 : RSEntry :=
  { valid := true, running := false, locked := false, rob_index := 1,
    rs1_rsid := -1, rs2_rsid := -1, rs1_data := 3, rs2_data := 4, instr := default }

def wC4core : Core :=
  { issue_queue := [], RAT := fun _ => none,
    ROB := { capacity := 4, entries := fun _ => default, head := 0, count := 2 },
    RS := [wC4e0, wC4e1],
    RST := fun _ => -1, CDB := none, FUs := [default],
    reg_file := fun _ => 0, exited := false, perf_instrs := 0, fetched_instrs := 2 }

def wC5core : Core :=
  { issue_queue := [], RAT := fun _ => none,
    ROB := { capacity := 4, entries := fun _ => default, head := 0, count := 1 },
    RS := [default], RST := fun _ => -1, CDB := none,
    FUs := [{ busy := true, counter := 1,
              out := { result := 9, rob_index := 0, rs_index := 0 } }],
    reg_file := fun _ => 0, exited := false, perf_instrs := 0, fetched_instrs := 1 }

def wC7instr : Instruction :=
  { rs1 := 0, rs2 := 0, rd := 0,
    exe_flags := { use_rs1 := false, use_rs2 := false, use_rd := false, is_exit := false },
    fu_type := 0 }

def wC7state : Core :=
  ((((Core.init 2 2 2).fetch wC7instr).issue.execute wSem wLat0).execute
    wSem wLat0).writeback

def wC9instr : Instruction :=
  { rs1 := 1, rs2 := 0, rd := 1,
    exe_flags := { use_rs1 := true, use_rs2 := false, use_rd := true, is_exit := false },
    fu_type := 0 }

def wC9core : Core :=
  { issue_queue := [wC9instr],
    RAT := fun _ => none,
    ROB := { capacity := 4, entries := fun _ => default, head := 0, count := 0 },
    RS := [default],
    RST := fun _ => 5,
    CDB := none,
    FUs := [default],
    reg_file := fun r => 100 + r,
    exited := false, perf_instrs := 0, fetched_instrs := 1 }

def wC9entry : RSEntry :=
  { valid := true, running := false, locked := false, rob_index := 0,
    rs1_rsid := -1, rs2_rsid := -1, rs1_data := 101, rs2_data := 0, instr := wC9instr }

def wC10instr : Instruction :=
  { rs1 := 0, rs2 := 0, rd := 2,
    exe_flags := { use_rs1 := false, use_rs2 := false, use_rd := true, is_exit := false },
    fu_type := 0 }

def wC10core : Core :=
  { issue_queue := [wC10instr],
    RAT := fun _ => none,
    ROB := { capacity := 4, entries := fun _ => default, head := 0, count := 0 },
    RS := [default],
    RST := fun _ => 5,
    CDB := none,
    FUs := [default],
    reg_file := fun r => 100 + r,
    exited := false, perf_instrs := 0, fetched_instrs := 1 }

def wC10entry : RSEntry :=
  { valid := true, running := false, locked := false, rob_index := 0,
    rs1_rsid := -1, rs2_rsid := -1, rs1_data := 0, rs2_data := 0, instr := wC10instr }

/-! ### Characterization lemmas for the stage functions -/

theorem issue_empty (c : Core) (hq : c.issue_queue = []) : c.issue = c := by
  unfold Core.issue
  rw [hq]

theorem issue_stall (c : Core) (instr : Instruction) (rest : List Instruction)
    (hq : c.issue_queue = instr :: rest)
    (hg : (RS_full c.RS || ROB_full c.ROB) = true) : c.issue = c := by
  unfold Core.issue
  rw [hq]
  simp [hg]

theorem issue_eq (c : Core) (instr : Instruction) (rest : List Instruction)
    (hq : c.issue_queue = instr :: rest)
    (hg : (RS_full c.RS || ROB_full c.ROB) = false) :
    c.issue =
      { c with
        issue_queue := rest,
        ROB := ROB_allocate c.ROB instr,
        RAT := if instr.exe_flags.use_rd then
                 ratSet c.RAT instr.rd (newROBIndex c.ROB)
               else c.RAT,
        RS := (RS_issue c.RS (issuedEntry c instr)).1,
        RST := if instr.exe_flags.use_rd then
                 fun k => if k = newROBIndex c.ROB then
                            ((RS_issue c.RS (issuedEntry c instr)).2 : Int)
                          else c.RST k
               else c.RST } := by
  unfold Core.issue
  rw [hq]
  simp [hg]

theorem writeback_none (c : Core) (h : c.CDB = none) : c.writeback = c := by
  unfold Core.writeback
  rw [h]

theorem writeback_some (c : Core) (msg : CDBMsg) (h : c.CDB = some msg) :
    c.writeback =
      { c with
        RS := modifyAt (c.RS.map fun e => if e.valid then updateOperands msg e else e)
                msg.rs_index (fun e => { e with valid := false }),
        ROB := ROB_update msg c.ROB,
        CDB := none } := by
  unfold Core.writeback
  rw [h]

theorem commit_empty (c : Core) (h : ROB_empty c.ROB = true) : c.commit = c := by
  unfold Core.commit
  simp [h]

theorem commit_notready (c : Core) (h : ROB_empty c.ROB = false)
    (hr : (c.ROB.entries c.ROB.head).ready = false) : c.commit = c := by
  unfold Core.commit
  simp [h, hr]

theorem commit_ready (c : Core) (h : ROB_empty c.ROB = false)
    (hr : (c.ROB.entries c.ROB.head).ready = true) :
    c.commit =
      { c with
        reg_file := if (c.ROB.entries c.ROB.head).instr.exe_flags.use_rd then
                      fun r => if r = (c.ROB.entries c.ROB.head).instr.rd then
                                 (c.ROB.entries c.ROB.head).result
                               else c.reg_file r
                    else c.reg_file,
        RAT := if (c.ROB.entries c.ROB.head).instr.exe_flags.use_rd
                  && (c.RAT (c.ROB.entries c.ROB.head).instr.rd == some c.ROB.head) then
                 ratClear c.RAT (c.ROB.entries c.ROB.head).instr.rd
               else c.RAT,
        ROB := ROB_pop c.ROB,
        perf_instrs := c.perf_instrs + 1,
        exited := c.exited || (c.ROB.entries c.ROB.head).instr.exe_flags.is_exit } := by
  unfold Core.commit
  simp [h, hr]

theorem execute_proj (sem : Instruction → Nat → Nat → Nat) (lat : Instruction → Nat)
    (c : Core) :
    (c.execute sem lat).RAT = c.RAT ∧ (c.execute sem lat).ROB = c.ROB ∧
    (c.execute sem lat).issue_queue = c.issue_queue ∧
    (c.execute sem lat).perf_instrs = c.perf_instrs ∧
    (c.execute sem lat).fetched_instrs = c.fetched_instrs ∧
    (c.execute sem lat).exited = c.exited := by
  exact ⟨rfl, rfl, rfl, rfl, rfl, rfl⟩

/-! ### Helpers about the free-slot scan -/

theorem firstInvalid_lt {rs : List RSEntry} {j : Nat}
    (h : firstInvalid rs = some j) : j < rs.length := by
  induction rs generalizing j with
  | nil => simp [firstInvalid] at h
  | cons e rest ih =>
    simp only [firstInvalid] at h
    by_cases hv : e.valid
    · rw [if_pos hv] at h
      rcases Option.map_eq_some'.mp h with ⟨j', hj', rfl⟩
      simpa [Nat.succ_lt_succ_iff] using ih hj'
    · rw [if_neg hv] at h
      cases h
      simp

theorem RS_full_false_firstInvalid {rs : List RSEntry} (h : RS_full rs = false) :
    ∃ j, firstInvalid rs = some j := by
  induction rs with
  | nil => simp [RS_full] at h
  | cons e rest ih =>
    simp only [RS_full, List.all_cons, Bool.and_eq_false_iff] at h
    by_cases hv : e.valid
    · rcases h with h | h
      · rw [hv] at h; cases h
      · rcases ih h with ⟨j, hj⟩
        exact ⟨j + 1, by simp [firstInvalid, hv, hj]⟩
    · exact ⟨0, by simp [firstInvalid, hv]⟩

/-! ### Circular-buffer index arithmetic -/

theorem slot_inj {cap hd k k' : Nat} (hk : k < cap) (hk' : k' < cap)
    (he : (hd + k) % cap = (hd + k') % cap) : k = k' := by
  have h1 : k ≡ k' [MOD cap] := Nat.ModEq.add_left_cancel' hd he
  have h2 : k % cap = k' % cap := h1
  rwa [Nat.mod_eq_of_lt hk, Nat.mod_eq_of_lt hk'] at h2

theorem slot_shift (cap hd k : Nat) :
    ((hd + 1) % cap + k) % cap = (hd + (k + 1)) % cap := by
  rw [Nat.mod_add_mod]
  ring_nf

/-! ### Preservation of the inductive invariant -/

theorem ROB_update_instr (msg : CDBMsg) (rob : ROB) (j : Nat) :
    ((ROB_update msg rob).entries j).instr = (rob.entries j).instr := by
  simp only [ROB_update]
  by_cases hj : j = msg.rob_index <;> simp [hj]

theorem ratinv_issue_aux {cap hd n : Nat} {ent : Nat → ROBEntry}
    {rat : Nat → Option Nat} {instr : Instruction}
    (hlt : n < cap)
    (hinv : ∀ r i, rat r = some i → ∃ k, k < n ∧ (hd + k) % cap = i ∧
      writesReg (ent i).instr r ∧
      ∀ k', k < k' → k' < n → ¬ writesReg (ent ((hd + k') % cap)).instr r) :
    ∀ r i,
      (if instr.exe_flags.use_rd then
         ratSet rat instr.rd ((hd + n) % cap) else rat) r = some i →
      ∃ k, k < n + 1 ∧ (hd + k) % cap = i ∧
        writesReg ((fun j => if j = (hd + n) % cap then
            ({ instr := instr, ready := false, result := 0 } : ROBEntry)
          else ent j) i).instr r ∧
        ∀ k', k < k' → k' < n + 1 →
          ¬ writesReg ((fun j => if j = (hd + n) % cap then
              ({ instr := instr, ready := false, result := 0 } : ROBEntry)
            else ent j) ((hd + k') % cap)).instr r := by
  intro r i hmap
  by_cases hcase : instr.exe_flags.use_rd = true ∧ r = instr.rd
  · obtain ⟨hrd, hr⟩ := hcase
    subst hr
    rw [if_pos hrd] at hmap
    have hi : (hd + n) % cap = i := by simpa [ratSet] using hmap
    subst hi
    refine ⟨n, by omega, rfl, ?_, ?_⟩
    · simp [writesReg, hrd]
    · intro k' h1 h2; omega
  · have hmap' : rat r = some i := by
      rcases Bool.eq_false_or_eq_true instr.exe_flags.use_rd with hrd | hrd
      · by_cases hr : r = instr.rd
        · exact absurd ⟨hrd, hr⟩ hcase
        · rw [if_pos hrd] at hmap
          simpa [ratSet, hr] using hmap
      · rwa [if_neg (by simp [hrd])] at hmap
    have hnw : ¬ writesReg instr r := by
      rintro ⟨hw1, hw2⟩
      exact hcase ⟨hw1, hw2.symm⟩
    obtain ⟨k, hk, hslot, hw, hy⟩ := hinv r i hmap'
    have hine : i ≠ (hd + n) % cap := by
      intro he
      have : k = n := slot_inj (lt_trans hk hlt) hlt (hslot.trans he)
      omega
    refine ⟨k, by omega, hslot, ?_, ?_⟩
    · simpa [hine] using hw
    · intro k' h1 h2
      by_cases hk' : k' < n
      · have hne : (hd + k') % cap ≠ (hd + n) % cap := by
          intro he
          have : k' = n := slot_inj (lt_trans hk' hlt) hlt he
          omega
        simpa [hne] using hy k' h1 hk'
      · have hk'n : k' = n := by omega
        subst hk'n
        simpa using hnw

theorem ratinv_commit_aux {cap hd n : Nat} {ent : Nat → ROBEntry}
    {rat : Nat → Option Nat}
    (hhd : hd < cap) (hn0 : n ≠ 0)
    (hinv : ∀ r i, rat r = some i → ∃ k, k < n ∧ (hd + k) % cap = i ∧
      writesReg (ent i).instr r ∧
      ∀ k', k < k' → k' < n → ¬ writesReg (ent ((hd + k') % cap)).instr r) :
    ∀ r i,
      (if (ent hd).instr.exe_flags.use_rd && (rat (ent hd).instr.rd == some hd) then
         ratClear rat (ent hd).instr.rd else rat) r = some i →
      ∃ k, k < n - 1 ∧ ((hd + 1) % cap + k) % cap = i ∧
        writesReg (ent i).instr r ∧
        ∀ k', k < k' → k' < n - 1 →
          ¬ writesReg (ent (((hd + 1) % cap + k') % cap)).instr r := by
  intro r i hmap
  have hmap' : rat r = some i := by
    by_cases hc : ((ent hd).instr.exe_flags.use_rd
        && (rat (ent hd).instr.rd == some hd)) = true
    · rw [if_pos hc] at hmap
      by_cases hr : r = (ent hd).instr.rd
      · simp [ratClear, hr] at hmap
      · simpa [ratClear, hr] using hmap
    · rwa [if_neg hc] at hmap
  obtain ⟨k, hk, hslot, hw, hy⟩ := hinv r i hmap'
  have hk1 : 1 ≤ k := by
    by_contra h0
    have hk0 : k = 0 := by omega
    subst hk0
    have hid : i = hd := by
      rw [← hslot]
      simp [Nat.mod_eq_of_lt hhd]
    obtain ⟨hw1, hw2⟩ := hw
    have hcond : ((ent hd).instr.exe_flags.use_rd
        && (rat (ent hd).instr.rd == some hd)) = true := by
      rw [← hid]
      simp [hw1, hw2, hmap']
    rw [if_pos hcond] at hmap
    have hrrd : r = (ent hd).instr.rd := by rw [← hid, hw2]
    simp [ratClear, hrrd] at hmap
  refine ⟨k - 1, by omega, ?_, hw, ?_⟩
  · rw [slot_shift]
    have e : k - 1 + 1 = k := by omega
    rw [e, hslot]
  · intro k' h1 h2
    rw [slot_shift]
    exact hy (k' + 1) (by omega) (by omega)

theorem inv_issue {c : Core} (h : Inv c) : Inv c.issue := by
  obtain ⟨⟨hhead, hcount⟩, hcnt, hrat⟩ := h
  cases hq : c.issue_queue with
  | nil => rw [issue_empty c hq]; exact ⟨⟨hhead, hcount⟩, hcnt, hrat⟩
  | cons instr rest =>
    cases hg : (RS_full c.RS || ROB_full c.ROB) with
    | true => rw [issue_stall c instr rest hq hg]; exact ⟨⟨hhead, hcount⟩, hcnt, hrat⟩
    | false =>
      rw [issue_eq c instr rest hq hg]
      have hrobfull : ROB_full c.ROB = false := (Bool.or_eq_false_iff.mp hg).2
      have hlt : c.ROB.count < c.ROB.capacity := by
        have hne : ¬ c.ROB.count = c.ROB.capacity := by
          simpa [ROB_full] using hrobfull
        omega
      refine ⟨⟨?_, ?_⟩, ?_, ?_⟩
      · exact hhead
      · show c.ROB.count + 1 ≤ c.ROB.capacity
        omega
      · show c.perf_instrs + (c.ROB.count + 1) + rest.length = c.fetched_instrs
        simp only [CountInv, hq, List.length_cons] at hcnt
        omega
      · intro r i hmap
        exact ratinv_issue_aux hlt hrat r i hmap

theorem inv_execute {c : Core} (sem : Instruction → Nat → Nat → Nat)
    (lat : Instruction → Nat) (h : Inv c) : Inv (c.execute sem lat) := by
  obtain ⟨⟨h1, h2⟩, h3, h4⟩ := h
  exact ⟨⟨h1, h2⟩, h3, fun r i hm => h4 r i hm⟩

theorem inv_writeback {c : Core} (h : Inv c) : Inv c.writeback := by
  obtain ⟨⟨hhead, hcount⟩, hcnt, hrat⟩ := h
  cases hc : c.CDB with
  | none => rw [writeback_none c hc]; exact ⟨⟨hhead, hcount⟩, hcnt, hrat⟩
  | some msg =>
    rw [writeback_some c msg hc]
    refine ⟨⟨hhead, hcount⟩, hcnt, ?_⟩
    intro r i hmap
    obtain ⟨k, hk, hslot, hw, hy⟩ := hrat r i hmap
    refine ⟨k, hk, hslot, ?_, ?_⟩
    · show writesReg ((ROB_update msg c.ROB).entries i).instr r
      rw [ROB_update_instr]
      exact hw
    · intro k' h1 h2
      show ¬ writesReg ((ROB_update msg c.ROB).entries _).instr r
      rw [ROB_update_instr]
      exact hy k' h1 h2

theorem inv_commit {c : Core} (h : Inv c) : Inv c.commit := by
  obtain ⟨⟨hhead, hcount⟩, hcnt, hrat⟩ := h
  cases he : ROB_empty c.ROB with
  | true => rw [commit_empty c he]; exact ⟨⟨hhead, hcount⟩, hcnt, hrat⟩
  | false =>
    cases hr : (c.ROB.entries c.ROB.head).ready with
    | false => rw [commit_notready c he hr]; exact ⟨⟨hhead, hcount⟩, hcnt, hrat⟩
    | true =>
      rw [commit_ready c he hr]
      have hn0 : c.ROB.count ≠ 0 := by simpa [ROB_empty] using he
      have hcap : 0 < c.ROB.capacity := lt_of_le_of_lt (Nat.zero_le _) hhead
      refine ⟨⟨?_, ?_⟩, ?_, ?_⟩
      · exact Nat.mod_lt _ hcap
      · show c.ROB.count - 1 ≤ c.ROB.capacity
        omega
      · show c.perf_instrs + 1 + (c.ROB.count - 1) + c.issue_queue.length
            = c.fetched_instrs
        simp only [CountInv] at hcnt
        omega
      · intro r i hmap
        exact ratinv_commit_aux hhead hn0 hrat r i hmap

theorem inv_fetch {c : Core} (instr : Instruction) (h : Inv c) :
    Inv (c.fetch instr) := by
  obtain ⟨hwf, hcnt, hrat⟩ := h
  refine ⟨hwf, ?_, hrat⟩
  show c.perf_instrs + c.ROB.count + (c.issue_queue ++ [instr]).length
      = c.fetched_instrs + 1
  simp only [CountInv] at hcnt
  simp [List.length_append]
  omega

theorem inv_init (cap nrs nfu : Nat) (hcap : 0 < cap) :
    Inv (Core.init cap nrs nfu) := by
  refine ⟨⟨?_, ?_⟩, ?_, ?_⟩
  · simpa [Core.init] using hcap
  · simp [Core.init]
  · simp [CountInv, Core.init]
  · intro r i hmap
    simp [Core.init] at hmap

theorem inv_reachable {cap nrs nfu : Nat} {c : Core} (hcap : 0 < cap)
    (h : Reachable cap nrs nfu c) : Inv c := by
  induction h with
  | refl => exact inv_init cap nrs nfu hcap
  | tail hsteps hstep ih =>
    cases hstep with
    | issue _ => exact inv_issue ih
    | execute sem lat _ => exact inv_execute sem lat ih
    | writeback _ => exact inv_writeback ih
    | commit _ => exact inv_commit ih
    | fetch instr _ => exact inv_fetch instr ih

/-! ### Access lemmas for modifyAt -/

theorem modifyAt_get?_ne {α : Type} (l : List α) (j i : Nat) (f : α → α)
    (h : i ≠ j) : (modifyAt l j f).get? i = l.get? i := by
  unfold modifyAt
  cases hj : l.get? j with
  | none => rfl
  | some a => exact List.get?_set_ne _ _ (fun he => h he.symm)

theorem modifyAt_get?_self {α : Type} (l : List α) (j : Nat) (f : α → α)
    (a : α) (h : l.get? j = some a) :
    (modifyAt l j f).get? j = some (f a) := by
  unfold modifyAt
  rw [h]
  have hlt : j < l.length := (List.get?_eq_some.mp h).1
  exact List.get?_set_eq_of_lt _ hlt

/-! ### Characterization of the CDB-drain scan -/

theorem drainScan_busy (fus : List FU) (msg : CDBMsg) :
    drainScan fus (some msg) = (fus, some msg) := by
  induction fus with
  | nil => rfl
  | cons fu rest ih => simp [drainScan, ih]

theorem drainScan_no_done :
    ∀ (fus : List FU), (∀ fu ∈ fus, fu.done = false) →
      drainScan fus none = (fus, none)
  | [], _ => rfl
  | fu :: rest, h => by
      have h0 : fu.done = false := h fu (by simp)
      have ih := drainScan_no_done rest (fun f hf => h f (by simp [hf]))
      simp [drainScan, h0, ih]

theorem drainScan_first_done :
    ∀ (fus : List FU) (j : Nat) (fu : FU),
      fus.get? j = some fu → fu.done = true →
      (∀ m, m < j → ∀ f, fus.get? m = some f → f.done = false) →
      drainScan fus none = (fus.set j (FU.clear fu), some fu.out)
  | [], j, fu, hj, _, _ => by simp at hj
  | f0 :: rest, 0, fu, hj, hd, _ => by
      simp only [List.get?] at hj
      cases hj
      simp [drainScan, hd]
  | f0 :: rest, j' + 1, fu, hj, hd, hbefore => by
      have h0 : f0.done = false := hbefore 0 (Nat.succ_pos _) f0 rfl
      have ih := drainScan_first_done rest j' fu (by simpa using hj) hd
        (fun m hm f hf => hbefore (m + 1) (by omega) f (by simpa using hf))
      simp [drainScan, h0, ih]

/-! ### Characterization of the dispatch scan -/

theorem dispatchScan_no_eligible (sem : Instruction → Nat → Nat → Nat)
    (lat : Instruction → Nat) (fus : List FU) :
    ∀ (rs : List RSEntry) (i : Nat),
      (∀ e ∈ rs, eligible fus e = false) →
      dispatchScan sem lat fus rs i = (rs, fus)
  | [], _, _ => rfl
  | e :: rest, i, h => by
      have h0 : eligible fus e = false := h e (by simp)
      have ih := dispatchScan_no_eligible sem lat fus rest (i + 1)
        (fun f hf => h f (by simp [hf]))
      simp [dispatchScan, h0, ih]

theorem dispatchScan_first (sem : Instruction → Nat → Nat → Nat)
    (lat : Instruction → Nat) (fus : List FU) :
    ∀ (rs : List RSEntry) (i j : Nat) (e : RSEntry),
      rs.get? j = some e → eligible fus e = true →
      (∀ m, m < j → ∀ f, rs.get? m = some f → eligible fus f = false) →
      dispatchScan sem lat fus rs i =
        (rs.set j { e with running := true },
         fus.set e.instr.fu_type
           (FU.issueOp sem lat e.instr e.rob_index (i + j) e.rs1_data e.rs2_data))
  | [], _, j, e, hj, _, _ => by simp at hj
  | e0 :: rest, i, 0, e, hj, he, _ => by
      simp only [List.get?] at hj
      cases hj
      simp [dispatchScan, he]
  | e0 :: rest, i, j' + 1, e, hj, he, hbefore => by
      have h0 : eligible fus e0 = false := hbefore 0 (Nat.succ_pos _) e0 rfl
      have ih := dispatchScan_first sem lat fus rest (i + 1) j' e
        (by simpa using hj) he
        (fun m hm f hf => hbefore (m + 1) (by omega) f (by simpa using hf))
      have harith : i + 1 + j' = i + (j' + 1) := by omega
      rw [harith] at ih
      simp [dispatchScan, h0, ih]

/-! ### The reservation-station entry created by issue -/

theorem issue_rs_entry (c : Core) (instr : Instruction) (rest : List Instruction)
    (j : Nat)
    (hq : c.issue_queue = instr :: rest)
    (hg : (RS_full c.RS || ROB_full c.ROB) = false)
    (hj : firstInvalid c.RS = some j) :
    (c.issue).RS.get? j = some (issuedEntry c instr) := by
  rw [issue_eq c instr rest hq hg]
  show (RS_issue c.RS (issuedEntry c instr)).1.get? j = _
  unfold RS_issue
  rw [hj]
  exact List.get?_set_eq_of_lt _ (firstInvalid_lt hj)

/-! ### Claim theorems -/

/-- Claim C2: during issue, each used source operand is resolved by priority:
a RAT hit reads the producing ROB entry, taking its result with no pending
producer when ready and otherwise recording the producer's RS slot obtained
via RST as the pending dependency; a RAT miss reads the architectural
register file. The entry created in the claimed RS slot carries exactly the
specification's resolution computed on the pre-issue state. -/
theorem issue_operand_resolution_priority (c : Core) (instr : Instruction)
    (rest : List Instruction) (j : Nat)
    (hq : c.issue_queue = instr :: rest)
    (hg : (RS_full c.RS || ROB_full c.ROB) = false)
    (hj : firstInvalid c.RS = some j) :
    ∀ e, (c.issue).RS.get? j = some e →
      (instr.exe_flags.use_rs1 = true →
        (e.rs1_data, e.rs1_rsid) = specResolveOperand c instr.rs1) ∧
      (instr.exe_flags.use_rs2 = true →
        (e.rs2_data, e.rs2_rsid) = specResolveOperand c instr.rs2) := by
  intro e he
  rw [issue_rs_entry c instr rest j hq hg hj] at he
  obtain rfl : issuedEntry c instr = e := Option.some_inj.mp he
  constructor
  · intro h1
    simp [issuedEntry, resolvedPair, h1, specResolveOperand]
  · intro h2
    simp [issuedEntry, resolvedPair, h2, specResolveOperand]

/-- Claim C9: issue resolves source operands before allocating the ROB entry
and before overwriting the RAT mapping of the destination, so an instruction
whose destination equals one of its sources resolves that source against the
previous producer recorded in the pre-issue state (or the architectural
register file on a RAT miss), never against its own new ROB entry. -/
theorem issue_self_dependency_previous_producer (c : Core) (instr : Instruction)
    (rest : List Instruction) (j : Nat)
    (hq : c.issue_queue = instr :: rest)
    (hg : (RS_full c.RS || ROB_full c.ROB) = false)
    (hj : firstInvalid c.RS = some j)
    (hrd : instr.exe_flags.use_rd = true) :
    ∀ e, (c.issue).RS.get? j = some e →
      (instr.exe_flags.use_rs1 = true → instr.rd = instr.rs1 →
        (e.rs1_data, e.rs1_rsid) = specResolveOperand c instr.rs1 ∧
        (c.RAT instr.rs1 = none →
          e.rs1_rsid = -1 ∧ e.rs1_data = c.reg_file instr.rs1)) ∧
      (instr.exe_flags.use_rs2 = true → instr.rd = instr.rs2 →
        (e.rs2_data, e.rs2_rsid) = specResolveOperand c instr.rs2 ∧
        (c.RAT instr.rs2 = none →
          e.rs2_rsid = -1 ∧ e.rs2_data = c.reg_file instr.rs2)) := by
  intro e he
  rw [issue_rs_entry c instr rest j hq hg hj] at he
  obtain rfl : issuedEntry c instr = e := Option.some_inj.mp he
  constructor
  · intro h1 _
    refine ⟨by simp [issuedEntry, resolvedPair, h1, specResolveOperand], ?_⟩
    intro hnone
    constructor <;> simp [issuedEntry, resolvedPair, h1, hnone]
  · intro h2 _
    refine ⟨by simp [issuedEntry, resolvedPair, h2, specResolveOperand], ?_⟩
    intro hnone
    constructor <;> simp [issuedEntry, resolvedPair, h2, hnone]

/-- Claim C10: an instruction issued with use_rs1 false (respectively
use_rs2 false) gets an RS entry whose corresponding operand is already
resolved: producer id the -1 sentinel and data 0, so an unused source never
falsifies operands_ready. -/
theorem unused_operand_preresolved (c : Core) (instr : Instruction)
    (rest : List Instruction) (j : Nat)
    (hq : c.issue_queue = instr :: rest)
    (hg : (RS_full c.RS || ROB_full c.ROB) = false)
    (hj : firstInvalid c.RS = some j) :
    ∀ e, (c.issue).RS.get? j = some e →
      (instr.exe_flags.use_rs1 = false → e.rs1_rsid = -1 ∧ e.rs1_data = 0) ∧
      (instr.exe_flags.use_rs2 = false → e.rs2_rsid = -1 ∧ e.rs2_data = 0) ∧
      (instr.exe_flags.use_rs1 = false → instr.exe_flags.use_rs2 = false →
        operandsReady e = true) := by
  intro e he
  rw [issue_rs_entry c instr rest j hq hg hj] at he
  obtain rfl : issuedEntry c instr = e := Option.some_inj.mp he
  refine ⟨?_, ?_, ?_⟩
  · intro h1
    constructor <;> simp [issuedEntry, resolvedPair, h1]
  · intro h2
    constructor <;> simp [issuedEntry, resolvedPair, h2]
  · intro h1 h2
    simp [operandsReady, issuedEntry, resolvedPair, h1, h2]

/-- Claim C3: writeback is a no-op on an empty CDB; on a message it applies
the operand update to every valid RS entry, releases exactly the slot named
by the message, marks the ROB entry at the message's reorder index ready
with the message's result, and clears the bus — so the bus is always empty
after writeback runs. -/
theorem writeback_characterized (c : Core) :
    (c.CDB = none → c.writeback = c) ∧
    (∀ msg, c.CDB = some msg →
      (∀ i e, c.RS.get? i = some e → i ≠ msg.rs_index →
        (c.writeback).RS.get? i = some (if e.valid then updateOperands msg e else e)) ∧
      (∀ e, c.RS.get? msg.rs_index = some e →
        (c.writeback).RS.get? msg.rs_index =
          some { (if e.valid then updateOperands msg e else e) with valid := false }) ∧
      ((c.writeback).ROB.entries msg.rob_index).ready = true ∧
      ((c.writeback).ROB.entries msg.rob_index).result = msg.result) ∧
    (c.writeback).CDB = none := by
  refine ⟨fun h => writeback_none c h, ?_, ?_⟩
  · intro msg hc
    rw [writeback_some c msg hc]
    refine ⟨?_, ?_, ?_, ?_⟩
    · intro i e hi hne
      show (modifyAt (c.RS.map fun e => if e.valid then updateOperands msg e else e)
          msg.rs_index (fun e => { e with valid := false })).get? i = _
      rw [modifyAt_get?_ne _ _ _ _ hne, List.get?_map, hi]
      rfl
    · intro e hi
      show (modifyAt (c.RS.map fun e => if e.valid then updateOperands msg e else e)
          msg.rs_index (fun e => { e with valid := false })).get? msg.rs_index = _
      refine modifyAt_get?_self _ _ _ _ ?_
      rw [List.get?_map, hi]
      rfl
    · show ((ROB_update msg c.ROB).entries msg.rob_index).ready = true
      simp [ROB_update]
    · show ((ROB_update msg c.ROB).entries msg.rob_index).result = msg.result
      simp [ROB_update]
  · cases hc : c.CDB with
    | none => rw [writeback_none c hc]; exact hc
    | some msg => rw [writeback_some c msg hc]

/-- Claim C4: in every execute invocation at most one RS entry is
dispatched, namely the lowest-indexed slot that is valid, not running, has
both operands ready, is not locked, and whose target functional unit is
free after the advance and drain phases; that entry alone is marked
running, all other RS entries are unchanged; with no eligible slot the RS
pool is untouched. -/
theorem execute_dispatches_lowest_eligible (sem : Instruction → Nat → Nat → Nat)
    (lat : Instruction → Nat) (c : Core) :
    ((∀ e ∈ c.RS, eligible (midFUs c) e = false) →
      (c.execute sem lat).RS = c.RS) ∧
    (∀ j e, c.RS.get? j = some e → eligible (midFUs c) e = true →
      (∀ m, m < j → ∀ f, c.RS.get? m = some f → eligible (midFUs c) f = false) →
      (c.execute sem lat).RS = c.RS.set j { e with running := true }) := by
  constructor
  · intro h
    show (dispatchScan sem lat (midFUs c) c.RS 0).1 = c.RS
    rw [dispatchScan_no_eligible sem lat (midFUs c) c.RS 0 h]
  · intro j e hj he hbefore
    show (dispatchScan sem lat (midFUs c) c.RS 0).1 = _
    rw [dispatchScan_first sem lat (midFUs c) c.RS 0 j e hj he hbefore]

/-- Claim C5: in every execute invocation all functional units first advance
one cycle; then at most one done unit drains onto the CDB: with the bus
occupied nothing drains and no unit is cleared, with the bus empty the
first done unit in scan order pushes its output and is cleared, and all
other units (including later done ones) are left as advanced. -/
theorem execute_drains_first_done (sem : Instruction → Nat → Nat → Nat)
    (lat : Instruction → Nat) (c : Core) :
    (∀ msg, c.CDB = some msg →
      (c.execute sem lat).CDB = some msg ∧ midFUs c = advanceFUs c.FUs) ∧
    ((c.CDB = none ∧ ∀ fu ∈ advanceFUs c.FUs, fu.done = false) →
      (c.execute sem lat).CDB = none ∧ midFUs c = advanceFUs c.FUs) ∧
    (∀ j fu, c.CDB = none → (advanceFUs c.FUs).get? j = some fu →
      fu.done = true →
      (∀ m, m < j → ∀ f, (advanceFUs c.FUs).get? m = some f → f.done = false) →
      (c.execute sem lat).CDB = some fu.out ∧
      midFUs c = (advanceFUs c.FUs).set j (FU.clear fu)) := by
  refine ⟨?_, ?_, ?_⟩
  · intro msg hc
    constructor
    · show (drainScan (advanceFUs c.FUs) c.CDB).2 = some msg
      rw [hc, drainScan_busy]
    · show (drainScan (advanceFUs c.FUs) c.CDB).1 = advanceFUs c.FUs
      rw [hc, drainScan_busy]
  · rintro ⟨hc, hnone⟩
    constructor
    · show (drainScan (advanceFUs c.FUs) c.CDB).2 = none
      rw [hc, drainScan_no_done _ hnone]
    · show (drainScan (advanceFUs c.FUs) c.CDB).1 = advanceFUs c.FUs
      rw [hc, drainScan_no_done _ hnone]
  · intro j fu hc hj hdone hbefore
    constructor
    · show (drainScan (advanceFUs c.FUs) c.CDB).2 = some fu.out
      rw [hc, drainScan_first_done _ j fu hj hdone hbefore]
    · show (drainScan (advanceFUs c.FUs) c.CDB).1 = _
      rw [hc, drainScan_first_done _ j fu hj hdone hbefore]

/-- Claim C6: with a non-empty issue queue but a full RS pool or full ROB,
issue returns with zero side effects — the whole core state is unchanged —
and iterating issue in this state any number of times still changes
nothing. -/
theorem issue_structural_stall_idempotent (c : Core)
    (hne : c.issue_queue ≠ [])
    (hfull : RS_full c.RS = true ∨ ROB_full c.ROB = true) :
    c.issue = c ∧ ∀ n, Core.issue^[n] c = c := by
  obtain ⟨instr, rest, hq⟩ := List.exists_cons_of_ne_nil hne
  have hg : (RS_full c.RS || ROB_full c.ROB) = true := by
    rcases hfull with h | h <;> simp [h]
  have h1 : c.issue = c := issue_stall c instr rest hq hg
  refine ⟨h1, ?_⟩
  intro n
  induction n with
  | zero => rfl
  | succ n ih => rw [Function.iterate_succ_apply, h1, ih]

/-- Claim C8: the termination state becomes true exactly when an instruction
whose execute-flags include is_exit is retired from the ROB head by commit,
and never before: issue, execute, writeback and fetch leave the flag
unchanged, and commit sets it iff it was already set or the ready ROB head
is an exit instruction. -/
theorem exit_latched_only_at_commit (sem : Instruction → Nat → Nat → Nat)
    (lat : Instruction → Nat) (instr : Instruction) (c : Core) :
    (c.issue).exited = c.exited ∧
    (c.execute sem lat).exited = c.exited ∧
    (c.writeback).exited = c.exited ∧
    (c.fetch instr).exited = c.exited ∧
    ((c.commit).exited = true ↔
      (c.exited = true ∨ (ROB_empty c.ROB = false ∧
        (c.ROB.entries c.ROB.head).ready = true ∧
        (c.ROB.entries c.ROB.head).instr.exe_flags.is_exit = true))) := by
  refine ⟨?_, rfl, ?_, rfl, ?_⟩
  · cases hq : c.issue_queue with
    | nil => rw [issue_empty c hq]
    | cons i0 rest =>
      cases hg : (RS_full c.RS || ROB_full c.ROB) with
      | true => rw [issue_stall c i0 rest hq hg]
      | false => rw [issue_eq c i0 rest hq hg]
  · cases hc : c.CDB with
    | none => rw [writeback_none c hc]
    | some msg => rw [writeback_some c msg hc]
  · cases he : ROB_empty c.ROB with
    | true => rw [commit_empty c he]; simp
    | false =>
      cases hr : (c.ROB.entries c.ROB.head).ready with
      | false => rw [commit_notready c he hr]; simp [hr]
      | true =>
        rw [commit_ready c he hr]
        show (c.exited || (c.ROB.entries c.ROB.head).instr.exe_flags.is_exit) = true ↔ _
        simp [hr]

/-- Claim C1: in every reachable state a present RAT mapping for register R
names the ROB index of the most recently issued not-yet-committed
instruction writing R (the RAT invariant); in particular issue of a
register-writing instruction overwrites the RAT entry of its destination
with the newly allocated ROB index, and commit never erases a mapping that
does not equal the committing ROB head index (so a younger rename
survives). -/
theorem rat_maps_youngest_writer {cap nrs nfu : Nat} {c : Core}
    (hcap : 0 < cap) (hreach : Reachable cap nrs nfu c) :
    RATInv c ∧
    (∀ instr rest, c.issue_queue = instr :: rest →
      (RS_full c.RS || ROB_full c.ROB) = false →
      instr.exe_flags.use_rd = true →
      (c.issue).RAT instr.rd = some (newROBIndex c.ROB)) ∧
    (∀ r i, c.RAT r = some i → i ≠ c.ROB.head → (c.commit).RAT r = some i) := by
  have hinv := inv_reachable hcap hreach
  refine ⟨hinv.2.2, ?_, ?_⟩
  · intro instr rest hq hg hrd
    rw [issue_eq c instr rest hq hg]
    show (if instr.exe_flags.use_rd = true then
        ratSet c.RAT instr.rd (newROBIndex c.ROB) else c.RAT) instr.rd = _
    simp [hrd, ratSet]
  · intro r i hmap hne
    cases he : ROB_empty c.ROB with
    | true => rw [commit_empty c he]; exact hmap
    | false =>
      cases hr : (c.ROB.entries c.ROB.head).ready with
      | false => rw [commit_notready c he hr]; exact hmap
      | true =>
        rw [commit_ready c he hr]
        by_cases hcond : ((c.ROB.entries c.ROB.head).instr.exe_flags.use_rd
            && (c.RAT (c.ROB.entries c.ROB.head).instr.rd == some c.ROB.head))
            = true
        · show (if ((c.ROB.entries c.ROB.head).instr.exe_flags.use_rd
              && (c.RAT (c.ROB.entries c.ROB.head).instr.rd == some c.ROB.head))
              = true then
              ratClear c.RAT (c.ROB.entries c.ROB.head).instr.rd
            else c.RAT) r = some i
          rw [if_pos hcond]
          have hrne : r ≠ (c.ROB.entries c.ROB.head).instr.rd := by
            intro hre
            have h2 := (Bool.and_eq_true_iff.mp hcond).2
            rw [← hre] at h2
            have h3 : c.RAT r = some c.ROB.head := eq_of_beq h2
            rw [hmap] at h3
            exact hne (Option.some_inj.mp h3)
          simp [ratClear, hrne, hmap]
        · show (if ((c.ROB.entries c.ROB.head).instr.exe_flags.use_rd
              && (c.RAT (c.ROB.entries c.ROB.head).instr.rd == some c.ROB.head))
              = true then
              ratClear c.RAT (c.ROB.entries c.ROB.head).instr.rd
            else c.RAT) r = some i
          rw [if_neg hcond]
          exact hmap

/-- Claim C7: in every reachable state where commit retires an instruction
(non-empty ROB with a ready head), the consistency assertion committed ≤
fetched holds at the assertion point, the committed counter is incremented
by exactly one, and committed ≤ fetched still holds afterward. -/
theorem commit_counter_bounded {cap nrs nfu : Nat} {c : Core}
    (hcap : 0 < cap) (hreach : Reachable cap nrs nfu c)
    (hne : ROB_empty c.ROB = false)
    (hready : (c.ROB.entries c.ROB.head).ready = true) :
    commitAssert c ∧
    (c.commit).perf_instrs = c.perf_instrs + 1 ∧
    (c.commit).perf_instrs ≤ (c.commit).fetched_instrs := by
  have hinv := inv_reachable hcap hreach
  have hcnt := hinv.2.1
  have hn0 : c.ROB.count ≠ 0 := by simpa [ROB_empty] using hne
  simp only [CountInv] at hcnt
  rw [commit_ready c hne hready]
  refine ⟨?_, rfl, ?_⟩
  · show c.perf_instrs ≤ c.fetched_instrs
    omega
  · show c.perf_instrs + 1 ≤ c.fetched_instrs
    omega

/-! ### Witnesses instantiating the claim theorems on concrete inputs -/

/-- Witness for claim C1 on a concrete reachable state: after fetching and
issuing a register-writing instruction with destination 3 from reset, the
RAT maps register 3 to the newly allocated ROB index 0. -/
theorem rat_maps_youngest_writer_witness :
    (((Core.init 2 2 2).fetch wC1instr).issue).RAT 3 = some 0 := by
  have h := @rat_maps_youngest_writer 2 2 2 ((Core.init 2 2 2).fetch wC1instr)
    (by decide)
    (Relation.ReflTransGen.tail Relation.ReflTransGen.refl
      (Step.fetch wC1instr (Core.init 2 2 2)))
  exact h.2.1 wC1instr [] rfl rfl rfl

/-- Witness for claim C2: on a state whose RAT maps rs1 to a not-ready ROB
entry and leaves rs2 unmapped, the issued entry records the RST slot 7 as
rs1's pending producer and reads rs2's value 12 from the register file. -/
theorem issue_operand_resolution_priority_witness :
    (wC2core.issue).RS.get? 0 = some wC2entry ∧
    (wC2entry.rs1_data, wC2entry.rs1_rsid) = specResolveOperand wC2core 1 ∧
    (wC2entry.rs2_data, wC2entry.rs2_rsid) = specResolveOperand wC2core 2 := by
  have h := issue_operand_resolution_priority wC2core wC2instr [] 0
    rfl rfl rfl wC2entry (by decide)
  exact ⟨by decide, h.1 rfl, h.2 rfl⟩

/-- Witness for claim C3 on a concrete bus message: the waiting entry at
slot 1 wakes up with result 42, the producing slot 0 is released, the ROB
entry 2 becomes ready with result 42, and the bus is left empty. -/
theorem writeback_characterized_witness :
    (wC3core.writeback).RS.get? 1 =
      some { valid := true, running := false, locked := false, rob_index := 3,
             rs1_rsid := -1, rs2_rsid := -1, rs1_data := 42, rs2_data := 9,
             instr := default } ∧
    (wC3core.writeback).RS.get? 0 = some { wC3e0 with valid := false } ∧
    ((wC3core.writeback).ROB.entries 2).ready = true ∧
    ((wC3core.writeback).ROB.entries 2).result = 42 ∧
    (wC3core.writeback).CDB = none := by
  have h := writeback_characterized wC3core
  have h2 := h.2.1 wC3msg rfl
  exact ⟨h2.1 1 wC3e1 rfl (by decide), h2.2.1 wC3e0 rfl, h2.2.2.1, h2.2.2.2, h.2.2⟩

/-- Witness for claim C4: with slot 0 already running and slot 1 eligible,
execute dispatches exactly slot 1 and marks it running. -/
theorem execute_dispatches_lowest_eligible_witness :
    (wC4core.execute wSem wLat0).RS = [wC4e0, { wC4e1 with running := true }] := by
  have h := (execute_dispatches_lowest_eligible wSem wLat0 wC4core).2 1 wC4e1
    rfl rfl
    (fun m hm f hf => by
      have hm0 : m = 0 := by omega
      subst hm0
      have h2 : some wC4e0 = some f := hf
      cases Option.some_inj.mp h2
      rfl)
  exact h

/-- Witness for claim C5: a unit one cycle from completion advances to done
and, with the bus empty, drains its output onto the CDB and is cleared. -/
theorem execute_drains_first_done_witness :
    (wC5core.execute wSem wLat0).CDB =
      some { result := 9, rob_index := 0, rs_index := 0 } ∧
    midFUs wC5core =
      [{ busy := false, counter := 0,
         out := { result := 9, rob_index := 0, rs_index := 0 } }] := by
  have h := (execute_drains_first_done wSem wLat0 wC5core).2.2 0
    { busy := true, counter := 0,
      out := { result := 9, rob_index := 0, rs_index := 0 } }
    rfl rfl rfl
    (fun m hm f hf => absurd hm (by omega))
  exact h

/-- Witness for claim C6: with a non-empty issue queue in front of a
zero-capacity (hence full) ROB, issue changes nothing, no matter how often
it is retried. -/
theorem issue_structural_stall_idempotent_witness :
    ((Core.init 0 1 1).fetch default).issue = (Core.init 0 1 1).fetch default ∧
    Core.issue^[3] ((Core.init 0 1 1).fetch default) =
      (Core.init 0 1 1).fetch default := by
  have h := issue_structural_stall_idempotent ((Core.init 0 1 1).fetch default)
    (by simp [Core.fetch, Core.init]) (Or.inr rfl)
  exact ⟨h.1, h.2 3⟩

/-- Witness for claim C7 on a concrete reachable state: after fetch, issue,
two execute cycles and a writeback from reset, the ROB head is ready; commit
increments the retired counter from 0 to 1, within the fetched count 1. -/
theorem commit_counter_bounded_witness :
    commitAssert wC7state ∧
    (wC7state.commit).perf_instrs = wC7state.perf_instrs + 1 ∧
    (wC7state.commit).perf_instrs ≤ (wC7state.commit).fetched_instrs := by
  have hreach : Reachable 2 2 2 wC7state :=
    Relation.ReflTransGen.tail
      (Relation.ReflTransGen.tail
        (Relation.ReflTransGen.tail
          (Relation.ReflTransGen.tail
            (Relation.ReflTransGen.tail Relation.ReflTransGen.refl
              (Step.fetch wC7instr (Core.init 2 2 2)))
            (Step.issue _))
          (Step.execute wSem wLat0 _))
        (Step.execute wSem wLat0 _))
      (Step.writeback _)
  exact commit_counter_bounded (by decide) hreach rfl rfl

/-- Witness for claim C9: an instruction whose destination equals its first
source, issued with no RAT mapping for that register, reads the
architectural register file (value 101) with no pending producer. -/
theorem issue_self_dependency_previous_producer_witness :
    (wC9core.issue).RS.get? 0 = some wC9entry ∧
    wC9entry.rs1_rsid = -1 ∧ wC9entry.rs1_data = wC9core.reg_file 1 := by
  have h := issue_self_dependency_previous_producer wC9core wC9instr [] 0
    rfl rfl rfl rfl wC9entry (by decide)
  have h2 := (h.1 rfl rfl).2 rfl
  exact ⟨by decide, h2.1, h2.2⟩

/-- Witness for claim C10: an instruction using neither source operand gets
an RS entry with both producer ids at the -1 sentinel, both data fields 0,
and operands_ready already true. -/
theorem unused_operand_preresolved_witness :
    (wC10core.issue).RS.get? 0 = some wC10entry ∧
    wC10entry.rs1_rsid = -1 ∧ wC10entry.rs1_data = 0 ∧
    wC10entry.rs2_rsid = -1 ∧ wC10entry.rs2_data = 0 ∧
    operandsReady wC10entry = true := by
  have h := unused_operand_preresolved wC10core wC10instr [] 0
    rfl rfl rfl wC10entry (by decide)
  exact ⟨by decide, (h.1 rfl).1, (h.1 rfl).2, (h.2.1 rfl).1, (h.2.1 rfl).2,
    h.2.2 rfl rfl⟩

end OOO
